import Mathlib

/-!
Shallow embedding of the food-ordering backend's validation module
(`src/server/src/utils/validation.ts`), order model (`models/Order`,
`models/MenuItem`) and order controller (`controllers/orderController`),
with theorems settling the specification's claims about them.

JS numbers are modelled as `ℚ`; where the code inspects a number's
`toString()` rendering, the number is carried together with that rendering
(`JSNumber`).  JS `undefined`/missing record fields are `Option`'s `none`.
Handlers that mutate an order throw (`ApiError`) before any write on every
failure path, so they are modelled as functions into `Except`: an `error`
result performs no mutation.
-/

deriving instance DecidableEq for Except

namespace FoodOrder

/-- Field-level validation error (`src/server/src/types` `ValidationError`). -/
structure ValidationError where
  field : String
  message : String
deriving DecidableEq

/-- Result of a validation function (`src/server/src/types` `ValidationResult`). -/
structure ValidationResult where
  valid : Bool
  errors : List ValidationError
deriving DecidableEq

/-- JS truthiness of an optional string: `undefined`, `null` and `""` are falsy. -/
def strFalsy : Option String → Bool
  | none => true
  | some s => s = ""

/-- JS `String.prototype.trim`: strip whitespace from both ends. -/
def jsTrim (s : String) : String :=
  ⟨((s.data.dropWhile Char.isWhitespace).reverse.dropWhile Char.isWhitespace).reverse⟩

/-- JS `String.prototype.toLowerCase` (on the ASCII statuses it is applied to). -/
def jsToLower (s : String) : String := ⟨s.data.map Char.toLower⟩

/-- A JS number together with the string its `toString()` produces.
The validation code decides 2-decimal-place acceptance by a regex on
`toString()`, so the rendering is part of the model. -/
structure JSNumber where
  val : ℚ
  str : String
deriving DecidableEq

/-- JS `Math.round`: round half toward positive infinity. -/
def jsRound (x : ℚ) : ℤ := ⌊x + 1/2⌋

/-- Round half away from zero, the rounding named by the spec (section 4.3).
For non-negative inputs it agrees with `jsRound`. -/
def roundHalfAwayFromZero (x : ℚ) : ℤ :=
  if 0 ≤ x then ⌊x + 1/2⌋ else -⌊-x + 1/2⌋

/-- `isValidPhone` (validation.ts line 27): regex `^[\d\s\-\+\(\)]{10,20}$`.
A character class repeated 10 to 20 times: length in range and every
character a digit, whitespace, hyphen, plus or parenthesis. -/
def isPhoneChar (c : Char) : Bool :=
  c.isDigit || c = ' ' || c = '\t' || c = '\n' || c = '\r' || c = '-' || c = '+' || c = '(' || c = ')'

/-- `isValidPhone` (validation.ts lines 27-30). -/
def isValidPhone (s : String) : Bool :=
  decide (10 ≤ s.length) && decide (s.length ≤ 20) && s.data.all isPhoneChar

/-- `isValidPassword` (validation.ts lines 37-39): length at least 6. -/
def isValidPassword (password : String) : Bool :=
  decide (6 ≤ password.length)

/-- Splitting a character list at dots, as JS `split('.')` does. -/
def splitOnDot : List Char → List (List Char)
  | [] => [[]]
  | c :: rest =>
    if c = '.' then [] :: splitOnDot rest
    else
      match splitOnDot rest with
      | [] => [[c]]
      | g :: gs => (c :: g) :: gs

/-- The menu-item price regex `^\d+(\.\d{1,2})?$` (validation.ts line 174),
applied to the stringified price: an all-digit integer part, optionally a
dot followed by one or two digits. -/
def decimalPattern (s : String) : Bool :=
  match splitOnDot s.data with
  | [a] => decide (0 < a.length) && a.all Char.isDigit
  | [a, b] => decide (0 < a.length) && a.all Char.isDigit &&
      decide (1 ≤ b.length) && decide (b.length ≤ 2) && b.all Char.isDigit
  | _ => false

/-! ## Menu item validation (validation.ts lines 138-194) -/

/-- The categories accepted by `validateMenuItemInput` (validation.ts line 147). -/
def validCategories : List String := ["Pizza", "Burgers", "Pasta", "Sides", "Drinks", "Desserts"]

/-- The `price` field of a menu-item payload: absent (`undefined`/`null`),
a JS number, or present but not a number (`typeof` check, line 170). -/
inductive PriceVal where
  | absent
  | num (v : JSNumber)
  | nonNumber
deriving DecidableEq

/-- Menu-item payload (validation.ts lines 138-145); `available` is never
inspected by the validator and is omitted. -/
structure MenuItemData where
  name : Option String
  description : Option String
  price : PriceVal
  image : Option String
  category : Option String
deriving DecidableEq

/-- Name checks of `validateMenuItemInput` (lines 150-156). -/
def menuNameErrors (name : Option String) : List ValidationError :=
  match name with
  | none => [⟨"name", "Item name is required"⟩]
  | some s =>
    if (jsTrim s).length = 0 then [⟨"name", "Item name is required"⟩]
    else if (jsTrim s).length < 2 then [⟨"name", "Name must be at least 2 characters long"⟩]
    else if (jsTrim s).length > 100 then [⟨"name", "Name cannot exceed 100 characters"⟩]
    else []

/-- Description checks of `validateMenuItemInput` (lines 159-165). -/
def menuDescriptionErrors (description : Option String) : List ValidationError :=
  match description with
  | none => [⟨"description", "Description is required"⟩]
  | some s =>
    if (jsTrim s).length = 0 then [⟨"description", "Description is required"⟩]
    else if (jsTrim s).length < 10 then [⟨"description", "Description must be at least 10 characters long"⟩]
    else if (jsTrim s).length > 500 then [⟨"description", "Description cannot exceed 500 characters"⟩]
    else []

/-- Price checks of `validateMenuItemInput` (lines 168-176): required, must
be a number, non-negative, and its `toString()` must match `decimalPattern`. -/
def menuPriceErrors (price : PriceVal) : List ValidationError :=
  match price with
  | PriceVal.absent => [⟨"price", "Price is required"⟩]
  | PriceVal.nonNumber => [⟨"price", "Price must be a number"⟩]
  | PriceVal.num v =>
    if v.val < 0 then [⟨"price", "Price cannot be negative"⟩]
    else if !decimalPattern v.str then [⟨"price", "Price must have at most 2 decimal places"⟩]
    else []

/-- Image checks of `validateMenuItemInput` (lines 179-181). -/
def menuImageErrors (image : Option String) : List ValidationError :=
  match image with
  | none => [⟨"image", "Image URL is required"⟩]
  | some s => if (jsTrim s).length = 0 then [⟨"image", "Image URL is required"⟩] else []

/-- Category checks of `validateMenuItemInput` (lines 184-188): required,
and the untrimmed value must be one of `validCategories`. -/
def menuCategoryErrors (category : Option String) : List ValidationError :=
  match category with
  | none => [⟨"category", "Category is required"⟩]
  | some s =>
    if (jsTrim s).length = 0 then [⟨"category", "Category is required"⟩]
    else if validCategories.contains s then []
    else [⟨"category", "Category must be one of: " ++ String.intercalate ", " validCategories⟩]

/-- `validateMenuItemInput` (validation.ts lines 138-194).  The source pushes
each field's errors onto one list in this order; every rule is evaluated. -/
def validateMenuItemInput (d : MenuItemData) : ValidationResult :=
  let errors := menuNameErrors d.name ++ menuDescriptionErrors d.description ++
    menuPriceErrors d.price ++ menuImageErrors d.image ++ menuCategoryErrors d.category
  ⟨errors.isEmpty, errors⟩

/-! ## Order status validation (validation.ts lines 276-290) -/

/-- The five canonical order statuses (validation.ts line 278). -/
def validStatuses : List String :=
  ["Order Received", "Preparing", "Out for Delivery", "Delivered", "Cancelled"]

/-- `validateOrderStatus` (validation.ts lines 276-290): `!status` (missing or
empty) gives the required error; a non-member of `validStatuses` gives the
error enumerating all five values. -/
def validateOrderStatus (status : Option String) : ValidationResult :=
  let errors :=
    match status with
    | none => [⟨"status", "Status is required"⟩]
    | some s =>
      if s = "" then [⟨"status", "Status is required"⟩]
      else if validStatuses.contains s then []
      else [⟨"status", "Status must be one of: " ++ String.intercalate ", " validStatuses⟩]
  ⟨errors.isEmpty, errors⟩

/-! ## Email regex (validation.ts lines 17-20)

`isValidEmail` tests `^\w+([.-]?\w+)*@\w+([.-]?\w+)*(\.\w{2,3})+$`.  The
regex is embedded with Mathlib's `RegularExpression`; a character class is
the sum of its characters. -/

/-- The characters of `\w`: ASCII letters, digits and underscore. -/
def wordChars : List Char :=
  ((List.range 26).map (fun i => Char.ofNat ('a'.toNat + i))) ++
  ((List.range 26).map (fun i => Char.ofNat ('A'.toNat + i))) ++
  ((List.range 10).map (fun i => Char.ofNat ('0'.toNat + i))) ++ ['_']

/-- A character class `[c₁c₂…]` as a regular expression: sum of its characters. -/
def clsRE (cs : List Char) : RegularExpression Char :=
  cs.foldr (fun c r => RegularExpression.plus (RegularExpression.char c) r) RegularExpression.zero

/-- `\w` as a regular expression. -/
def wcls : RegularExpression Char := clsRE wordChars

/-- `\w+`, i.e. `\w\w*`. -/
def wplus : RegularExpression Char := RegularExpression.comp wcls wcls.star

/-- `[.-]?`. -/
def sepOpt : RegularExpression Char :=
  RegularExpression.plus RegularExpression.epsilon (clsRE ['.', '-'])

/-- `\w+([.-]?\w+)*`: the local part, also the leading part of the domain. -/
def localPart : RegularExpression Char :=
  RegularExpression.comp wplus (RegularExpression.comp sepOpt wplus).star

/-- `\w{2,3}`. -/
def w23 : RegularExpression Char :=
  RegularExpression.comp wcls (RegularExpression.comp wcls
    (RegularExpression.plus RegularExpression.epsilon wcls))

/-- `\.\w{2,3}`. -/
def tldGroup : RegularExpression Char :=
  RegularExpression.comp (RegularExpression.char '.') w23

/-- The whole email regex `^\w+([.-]?\w+)*@\w+([.-]?\w+)*(\.\w{2,3})+$`,
the trailing group `(\.\w{2,3})+` written as `\.\w{2,3}(\.\w{2,3})*`. -/
def emailRE : RegularExpression Char :=
  RegularExpression.comp localPart (RegularExpression.comp (RegularExpression.char '@')
    (RegularExpression.comp localPart (RegularExpression.comp tldGroup tldGroup.star)))

/-- `isValidEmail` (validation.ts lines 17-20). -/
def isValidEmail (s : String) : Bool := emailRE.rmatch s.data

/-- The characters the email regex can consume: word characters, dot,
hyphen and the at sign. -/
def emailChar (c : Char) : Bool :=
  wordChars.contains c || c = '.' || c = '-' || c = '@'

/-- A regular expression mentions only characters satisfying `p`. -/
def onlyChars (p : Char → Bool) : RegularExpression Char → Prop
  | RegularExpression.zero => True
  | RegularExpression.epsilon => True
  | RegularExpression.char c => p c = true
  | RegularExpression.plus r s => onlyChars p r ∧ onlyChars p s
  | RegularExpression.comp r s => onlyChars p r ∧ onlyChars p s
  | RegularExpression.star r => onlyChars p r

/-! ## Registration validation (validation.ts lines 47-102) -/

/-- Registration payload (validation.ts lines 48-54).  `role` is carried as a
raw optional string, as the code compares it against `'user'`/`'admin'`. -/
structure RegisterData where
  name : Option String
  email : Option String
  password : Option String
  role : Option String
  adminSecretCode : Option String
deriving DecidableEq

/-- Name checks of `validateRegisterInput` (lines 60-66). -/
def regNameErrors (name : Option String) : List ValidationError :=
  match name with
  | none => [⟨"name", "Name is required"⟩]
  | some s =>
    if (jsTrim s).length = 0 then [⟨"name", "Name is required"⟩]
    else if (jsTrim s).length < 2 then [⟨"name", "Name must be at least 2 characters long"⟩]
    else if (jsTrim s).length > 50 then [⟨"name", "Name cannot exceed 50 characters"⟩]
    else []

/-- Email checks of `validateRegisterInput` (lines 69-73). -/
def regEmailErrors (email : Option String) : List ValidationError :=
  match email with
  | none => [⟨"email", "Email is required"⟩]
  | some s =>
    if (jsTrim s).length = 0 then [⟨"email", "Email is required"⟩]
    else if !isValidEmail s then [⟨"email", "Please enter a valid email address"⟩]
    else []

/-- Password checks of `validateRegisterInput` (lines 76-80). -/
def regPasswordErrors (password : Option String) : List ValidationError :=
  match password with
  | none => [⟨"password", "Password is required"⟩]
  | some s =>
    if s.length = 0 then [⟨"password", "Password is required"⟩]
    else if !isValidPassword s then [⟨"password", "Password must be at least 6 characters long"⟩]
    else []

/-- Role checks of `validateRegisterInput` (lines 83-87). -/
def regRoleErrors (role : Option String) : List ValidationError :=
  match role with
  | none => [⟨"role", "Role is required"⟩]
  | some s =>
    if s = "" then [⟨"role", "Role is required"⟩]
    else if s = "user" ∨ s = "admin" then []
    else [⟨"role", "Role must be either user or admin"⟩]

/-- Admin-secret checks of `validateRegisterInput` (lines 90-96): run only
when the submitted role is exactly `'admin'`. -/
def regAdminCodeErrors (role : Option String) (code : Option String) (configured : String) :
    List ValidationError :=
  if role = some "admin" then
    match code with
    | none => [⟨"adminSecretCode", "Admin secret code is required for admin registration"⟩]
    | some c =>
      if (jsTrim c).length = 0 then
        [⟨"adminSecretCode", "Admin secret code is required for admin registration"⟩]
      else if c ≠ configured then [⟨"adminSecretCode", "Invalid admin secret code"⟩]
      else []
  else []

/-- `validateRegisterInput` (validation.ts lines 47-102).  The source pushes
each field's errors onto one list in this order; every rule is evaluated. -/
def validateRegisterInput (d : RegisterData) (adminSecretCode : String) : ValidationResult :=
  let errors := regNameErrors d.name ++ regEmailErrors d.email ++
    regPasswordErrors d.password ++ regRoleErrors d.role ++
    regAdminCodeErrors d.role d.adminSecretCode adminSecretCode
  ⟨errors.isEmpty, errors⟩

/-! ## Order input validation (validation.ts lines 201-269)

`validateOrderInput` receives `req.body` content, so its `items` array may
hold arbitrary JS values.  The element shapes the code distinguishes are
`null`/`undefined` (property access throws a `TypeError`) and objects, whose
accessed fields are modelled with `Option` (absent/`undefined`/`null` is
`none`).  A thrown `TypeError` is the `Except.error` case. -/

/-- One element of the submitted `items` array. -/
inductive JItem where
  | jnull
  | jundef
  | jobj (menuItemId : Option String) (name : Option String)
      (price : Option ℚ) (quantity : Option ℚ)
deriving DecidableEq

/-- The submitted `items` value: `undefined`/`null`, a non-array value
(`Array.isArray` fails), or an array. -/
inductive ItemsVal where
  | undef
  | nullv
  | notArray
  | arr (l : List JItem)
deriving DecidableEq

/-- The submitted `deliveryDetails` object's accessed fields. -/
structure DDObj where
  name : Option String
  address : Option String
  phone : Option String
deriving DecidableEq

/-- The submitted `deliveryDetails` value: falsy (`undefined`/`null`) or an
object. -/
inductive DDVal where
  | undef
  | obj (d : DDObj)
deriving DecidableEq

/-- The field name `items[i].f` used for per-item errors (line 215 etc.). -/
def itemField (i : Nat) (f : String) : String :=
  "items[" ++ toString i ++ "]." ++ f

/-- The four per-item checks of `validateOrderInput` (lines 214-231) on an
object element at index `i`: menuItemId and name are truthiness-checked,
price must be present and non-negative, quantity present, at least 1 and an
integer.  All four run; each failing one contributes its error. -/
def itemObjErrors (i : Nat) (menuItemId : Option String) (name : Option String)
    (price : Option ℚ) (quantity : Option ℚ) : List ValidationError :=
  (if strFalsy menuItemId then [⟨itemField i "menuItemId", "Menu item ID is required"⟩] else []) ++
  (if strFalsy name then [⟨itemField i "name", "Item name is required"⟩] else []) ++
  (match price with
   | none => [⟨itemField i "price", "Item price is required"⟩]
   | some p => if p < 0 then [⟨itemField i "price", "Price cannot be negative"⟩] else []) ++
  (match quantity with
   | none => [⟨itemField i "quantity", "Quantity is required"⟩]
   | some q =>
     if q < 1 then [⟨itemField i "quantity", "Quantity must be at least 1"⟩]
     else if q.den ≠ 1 then [⟨itemField i "quantity", "Quantity must be a whole number"⟩]
     else [])

/-- The `items.forEach` loop (lines 213-232), collecting per-item errors in
index order.  A `null`/`undefined` element makes the callback's property
access throw, which escapes the whole validator. -/
def itemsLoop : Nat → List JItem → Except Unit (List ValidationError)
  | _, [] => Except.ok []
  | _, JItem.jnull :: _ => Except.error ()
  | _, JItem.jundef :: _ => Except.error ()
  | i, JItem.jobj m n p q :: rest =>
    match itemsLoop (i + 1) rest with
    | Except.error e => Except.error e
    | Except.ok tail => Except.ok (itemObjErrors i m n p q ++ tail)

/-- The items-level checks of `validateOrderInput` (lines 208-233). -/
def itemsErrors (items : ItemsVal) : Except Unit (List ValidationError) :=
  match items with
  | ItemsVal.undef => Except.ok [⟨"items", "Order items are required"⟩]
  | ItemsVal.nullv => Except.ok [⟨"items", "Order items are required"⟩]
  | ItemsVal.notArray => Except.ok [⟨"items", "Order items are required"⟩]
  | ItemsVal.arr [] => Except.ok [⟨"items", "Order must contain at least one item"⟩]
  | ItemsVal.arr l => itemsLoop 0 l

/-- The delivery-details checks of `validateOrderInput` (lines 236-263). -/
def ddErrors (dd : DDVal) : List ValidationError :=
  match dd with
  | DDVal.undef => [⟨"deliveryDetails", "Delivery details are required"⟩]
  | DDVal.obj d =>
    (match d.name with
     | none => [⟨"deliveryDetails.name", "Delivery name is required"⟩]
     | some s =>
       if (jsTrim s).length = 0 then [⟨"deliveryDetails.name", "Delivery name is required"⟩]
       else if (jsTrim s).length < 2 then [⟨"deliveryDetails.name", "Name must be at least 2 characters long"⟩]
       else if (jsTrim s).length > 50 then [⟨"deliveryDetails.name", "Name cannot exceed 50 characters"⟩]
       else []) ++
    (match d.address with
     | none => [⟨"deliveryDetails.address", "Delivery address is required"⟩]
     | some s =>
       if (jsTrim s).length = 0 then [⟨"deliveryDetails.address", "Delivery address is required"⟩]
       else if (jsTrim s).length < 10 then [⟨"deliveryDetails.address", "Address must be at least 10 characters long"⟩]
       else if (jsTrim s).length > 200 then [⟨"deliveryDetails.address", "Address cannot exceed 200 characters"⟩]
       else []) ++
    (match d.phone with
     | none => [⟨"deliveryDetails.phone", "Phone number is required"⟩]
     | some s =>
       if (jsTrim s).length = 0 then [⟨"deliveryDetails.phone", "Phone number is required"⟩]
       else if !isValidPhone s then [⟨"deliveryDetails.phone", "Please enter a valid phone number"⟩]
       else [])

/-- `validateOrderInput` (validation.ts lines 201-269): items checks then
delivery-details checks, errors in push order; a `TypeError` raised inside
the items loop escapes the whole call. -/
def validateOrderInput (items : ItemsVal) (dd : DDVal) : Except Unit ValidationResult :=
  match itemsErrors items with
  | Except.error e => Except.error e
  | Except.ok ie =>
    let errors := ie ++ ddErrors dd
    Except.ok ⟨errors.isEmpty, errors⟩

/-! ## Data model (models/MenuItem, models/Order) and order controller
(controllers/orderController) -/

/-- A persisted menu item: the fields the order controller reads
(`_id`, `name`, `price`, `available`). -/
structure MenuItem where
  id : String
  name : String
  price : ℚ
  available : Bool
deriving DecidableEq

/-- A client-submitted order line (the typed shape of `CreateOrderRequest`):
`menuItemId`, `name`, `price`, `quantity`. -/
structure ClientItem where
  menuItemId : String
  name : String
  price : ℚ
  quantity : ℚ
deriving DecidableEq

/-- Delivery details of an order. -/
structure DeliveryDetails where
  name : String
  address : String
  phone : String
deriving DecidableEq

/-- A persisted order line. -/
structure OrderItem where
  menuItemId : String
  name : String
  price : ℚ
  quantity : ℚ
deriving DecidableEq

/-- A persisted order: the fields the controller reads and writes. -/
structure Order where
  userId : String
  items : List OrderItem
  totalAmount : ℚ
  deliveryDetails : DeliveryDetails
  status : String
deriving DecidableEq

/-- An `ApiError` thrown by a handler: message, HTTP status, details. -/
structure ApiErr where
  message : String
  statusCode : Nat
  details : List String
deriving DecidableEq

/-- The items total `items.reduce((sum, item) => sum + item.price * item.quantity, 0)`
(orderController lines 67-69 and models/Order lines 138-140). -/
def orderItemsTotal (l : List OrderItem) : ℚ :=
  l.foldl (fun sum item => sum + item.price * item.quantity) 0

/-- The `OrderSchema.pre('save')` hook (models/Order lines 137-142): on every
save the total is recomputed from the items and rounded via `Math.round`. -/
def orderPreSave (o : Order) : Order :=
  { o with totalAmount := (jsRound (orderItemsTotal o.items * 100) : ℚ) / 100 }

/-- A typed client item as the JS value `validateOrderInput` receives. -/
def toJSItem (it : ClientItem) : JItem :=
  JItem.jobj (some it.menuItemId) (some it.name) (some it.price) (some it.quantity)

/-- Typed delivery details as the JS value `validateOrderInput` receives. -/
def toJSDD (dd : DeliveryDetails) : DDVal :=
  DDVal.obj ⟨some dd.name, some dd.address, some dd.phone⟩

/-- The enrichment of one order line (orderController lines 56-64): the
persisted name and price are looked up by `menuItemId` in the fetched menu
items; the client's `name` and `price` are never read. -/
def enrichItem (menuItems : List MenuItem) (item : ClientItem) : OrderItem :=
  let menuItem := menuItems.find? (fun mi => mi.id == item.menuItemId)
  { menuItemId := item.menuItemId
    name := (menuItem.map (fun m => m.name)).getD ""
    price := (menuItem.map (fun m => m.price)).getD 0
    quantity := item.quantity }

/-- `createOrder` (orderController lines 24-98) for an authenticated user:
validate the input; fetch the referenced menu items (`find` with `$in`) and
reject unless exactly as many documents come back as there are lines; reject
if any is unavailable; enrich each line with the persisted name and price
(the client's name and price are never read here); total the enriched lines,
round with `Math.round(x*100)/100`, reject a non-positive total; create the
order with status `Order Received` (the save runs the pre-save hook). -/
def createOrder (userId : String) (items : List ClientItem) (dd : DeliveryDetails)
    (menu : List MenuItem) : Except ApiErr Order :=
  match validateOrderInput (ItemsVal.arr (items.map toJSItem)) (toJSDD dd) with
  | Except.error _ => Except.error ⟨"TypeError", 500, []⟩
  | Except.ok validation =>
    if !validation.valid then
      Except.error ⟨"Validation failed", 400,
        validation.errors.map (fun e => e.field ++ ": " ++ e.message)⟩
    else
      let menuItemIds := items.map (fun it => it.menuItemId)
      let menuItems := menu.filter (fun m => menuItemIds.contains m.id)
      if menuItems.length ≠ items.length then
        Except.error ⟨"One or more menu items not found", 400, []⟩
      else
        let unavailableItems := menuItems.filter (fun m => !m.available)
        if unavailableItems.length > 0 then
          Except.error ⟨"Some items are not available: " ++
            String.intercalate ", " (unavailableItems.map (fun m => m.name)), 400, []⟩
        else
          let enrichedItems := items.map (enrichItem menuItems)
          let totalAmount := orderItemsTotal enrichedItems
          let roundedTotalAmount : ℚ := (jsRound (totalAmount * 100) : ℚ) / 100
          if roundedTotalAmount ≤ 0 then
            Except.error ⟨"Order total must be greater than 0", 400, []⟩
          else
            Except.ok (orderPreSave
              { userId := userId
                items := enrichedItems
                totalAmount := roundedTotalAmount
                deliveryDetails := ⟨jsTrim dd.name, jsTrim dd.address, jsTrim dd.phone⟩
                status := "Order Received" })

/-- `updateOrderStatus` (orderController lines 201-232) on a found order:
validate the target status; reject when the current status is `Delivered` or
`Cancelled`; otherwise overwrite the status and save (pre-save hook runs).
Every failure path throws before the write, leaving the order unchanged. -/
def updateOrderStatus (order : Order) (status : Option String) : Except ApiErr Order :=
  let validation := validateOrderStatus status
  if !validation.valid then
    Except.error ⟨"Validation failed", 400,
      validation.errors.map (fun e => e.field ++ ": " ++ e.message)⟩
  else if order.status = "Delivered" ∨ order.status = "Cancelled" then
    Except.error ⟨"Cannot update status of " ++ jsToLower order.status ++ " orders", 400, []⟩
  else
    Except.ok (orderPreSave { order with status := status.getD "" })

/-- `cancelOrder` (orderController lines 241-277) on a found order: the
caller must own the order; a `Delivered` order cannot be cancelled; a
`Cancelled` order gives the distinct already-cancelled error; otherwise the
status is set to `Cancelled` and saved (pre-save hook runs).  Every failure
path throws before the write, leaving the order unchanged. -/
def cancelOrder (callerUserId : String) (order : Order) : Except ApiErr Order :=
  if order.userId ≠ callerUserId then
    Except.error ⟨"Access denied", 403, []⟩
  else if order.status = "Delivered" then
    Except.error ⟨"Cannot cancel delivered orders", 400, []⟩
  else if order.status = "Cancelled" then
    Except.error ⟨"Order is already cancelled", 400, []⟩
  else
    Except.ok (orderPreSave { order with status := "Cancelled" })

/-! ## Concrete fixtures -/

/-- A demo menu: two available items priced 10 and 5. -/
def demoMenu : List MenuItem :=
  [⟨"m1", "Margherita Pizza", 10, true⟩, ⟨"m2", "Garlic Bread", 5, true⟩]

/-- A demo submission: quantities 2 and 3, client names and prices matching
the menu. -/
def demoItems : List ClientItem :=
  [⟨"m1", "Margherita Pizza", 10, 2⟩, ⟨"m2", "Garlic Bread", 5, 3⟩]

/-- The same submission with client-chosen (tampered) names and prices. -/
def demoItemsTampered : List ClientItem :=
  [⟨"m1", "Free Pizza", 0, 2⟩, ⟨"m2", "Cheap Bread", 7, 3⟩]

/-- Valid demo delivery details. -/
def demoDD : DeliveryDetails := ⟨"John Doe", "123 Main Street, Springfield", "1234567890"⟩

/-- The order lines `createOrder` persists for `demoItems`. -/
def demoOrderItems : List OrderItem :=
  [⟨"m1", "Margherita Pizza", 10, 2⟩, ⟨"m2", "Garlic Bread", 5, 3⟩]

/-- A demo order owned by `u1` in the given status. -/
def demoOrderWith (st : String) : Order := ⟨"u1", demoOrderItems, 35, demoDD, st⟩

/-- A menu whose single item is free, so an order on it totals 0. -/
def freeMenu : List MenuItem := [⟨"m0", "Tap Water", 0, true⟩]

/-- A one-line submission referencing the free item. -/
def freeItems : List ClientItem := [⟨"m0", "Tap Water", 0, 1⟩]

/-- The rational 12.99 as a normalised `Rat` literal (kernel-computable). -/
def q1299c : ℚ := ⟨1299, 100, by norm_num, by norm_num⟩

/-- The rational 12.999 as a normalised `Rat` literal (kernel-computable). -/
def q12999m : ℚ := ⟨12999, 1000, by norm_num, by norm_num⟩

/-- A valid menu-item payload (price 12.99, category Pizza). -/
def demoMenuItemData : MenuItemData :=
  { name := some "Margherita Pizza"
    description := some "Classic pizza with tomato and mozzarella"
    price := PriceVal.num ⟨q1299c, "12.99"⟩
    image := some "https://example.com/pizza.jpg"
    category := some "Pizza" }

/-- The same payload with price 12.999, whose JS rendering is "12.999". -/
def demoMenuItemData999 : MenuItemData :=
  { demoMenuItemData with price := PriceVal.num ⟨q12999m, "12.999"⟩ }

/-- A well-formed JS order-items element matching `demoItems`'s first line. -/
def demoJItem : JItem := JItem.jobj (some "m1") (some "Margherita Pizza") (some 10) (some 2)

/-- The JS value of `demoDD`. -/
def demoJSDD : DDVal := toJSDD demoDD

/-! ## Helper lemmas -/

lemma validateOrderStatus_of_mem {s : String} (h : s ∈ validStatuses) :
    validateOrderStatus (some s) = ⟨true, []⟩ := by
  simp only [validStatuses, List.mem_cons, List.mem_singleton, List.not_mem_nil, or_false] at h
  rcases h with h | h | h | h | h <;> subst h <;> decide

lemma validateOrderStatus_of_not_mem {s : String} (hne : s ≠ "") (h : s ∉ validStatuses) :
    validateOrderStatus (some s) =
      ⟨false, [⟨"status",
        "Status must be one of: Order Received, Preparing, Out for Delivery, Delivered, Cancelled"⟩]⟩ := by
  have h5 : ¬(s = "Order Received" ∨ s = "Preparing" ∨ s = "Out for Delivery" ∨
      s = "Delivered" ∨ s = "Cancelled") := by
    simpa [validStatuses] using h
  simp [validateOrderStatus, hne, h5, validStatuses]
  all_goals rfl

lemma updateOrderStatus_ok_status {o : Order} {s : Option String} {r : Order}
    (hok : updateOrderStatus o s = Except.ok r) :
    o.status ≠ "Delivered" ∧ o.status ≠ "Cancelled" := by
  unfold updateOrderStatus at hok
  constructor
  · intro hD
    rw [hD] at hok
    split at hok
    · cases hval : (validateOrderStatus s).valid <;> simp [hval] at hok
    · simp_all
  · intro hC
    rw [hC] at hok
    split at hok
    · cases hval : (validateOrderStatus s).valid <;> simp [hval] at hok
    · simp_all

lemma cancelOrder_ok_status {caller : String} {o : Order} {r : Order}
    (hok : cancelOrder caller o = Except.ok r) :
    o.status ≠ "Delivered" ∧ o.status ≠ "Cancelled" := by
  unfold cancelOrder at hok
  constructor
  · intro hD
    rw [hD] at hok
    split at hok <;> simp_all
  · intro hC
    rw [hC] at hok
    split at hok <;> simp_all

lemma cancelOrder_locked {caller : String} {o : Order}
    (h : o.status = "Delivered" ∨ o.status = "Cancelled") :
    ∀ r, cancelOrder caller o ≠ Except.ok r := by
  intro r hok
  rcases cancelOrder_ok_status hok with ⟨hd, hc⟩
  rcases h with h | h
  · exact hd h
  · exact hc h

lemma cancelOrder_succeeds {caller : String} {o : Order} (hown : o.userId = caller)
    (hd : o.status ≠ "Delivered") (hc : o.status ≠ "Cancelled") :
    cancelOrder caller o = Except.ok (orderPreSave { o with status := "Cancelled" }) := by
  simp [cancelOrder, hown, hd, hc]

lemma mem_validStatuses_not_terminal {st : String} (h : st ∈ validStatuses)
    (hd : st ≠ "Delivered") (hc : st ≠ "Cancelled") :
    st = "Order Received" ∨ st = "Preparing" ∨ st = "Out for Delivery" := by
  simp only [validStatuses, List.mem_cons, List.mem_singleton, List.not_mem_nil, or_false] at h
  tauto

lemma updateOrderStatus_succeeds {o : Order} {s : String} (hmem : s ∈ validStatuses)
    (hd : o.status ≠ "Delivered") (hc : o.status ≠ "Cancelled") :
    updateOrderStatus o (some s) = Except.ok (orderPreSave { o with status := s }) := by
  have hv : validateOrderStatus (some s) = ⟨true, []⟩ := validateOrderStatus_of_mem hmem
  simp [updateOrderStatus, hv, hd, hc]

lemma updateOrderStatus_locked {o : Order} {s : String} (hmem : s ∈ validStatuses)
    (h : o.status = "Delivered" ∨ o.status = "Cancelled") :
    updateOrderStatus o (some s) =
      Except.error ⟨"Cannot update status of " ++ jsToLower o.status ++ " orders", 400, []⟩ := by
  have hv : validateOrderStatus (some s) = ⟨true, []⟩ := validateOrderStatus_of_mem hmem
  simp [updateOrderStatus, hv, h]

lemma updateOrderStatus_invalid {o : Order} {s : String} (hne : s ≠ "") (h : s ∉ validStatuses) :
    updateOrderStatus o (some s) =
      Except.error ⟨"Validation failed", 400,
        ["status: Status must be one of: Order Received, Preparing, Out for Delivery, Delivered, Cancelled"]⟩ := by
  have hv := validateOrderStatus_of_not_mem hne h
  simp [updateOrderStatus, hv]

lemma updateOrderStatus_empty (o : Order) :
    updateOrderStatus o (some "") =
      Except.error ⟨"Validation failed", 400, ["status: Status is required"]⟩ := by
  have hv : validateOrderStatus (some "") = ⟨false, [⟨"status", "Status is required"⟩]⟩ := rfl
  simp [updateOrderStatus, hv]

lemma updateOrderStatus_none (o : Order) :
    updateOrderStatus o none =
      Except.error ⟨"Validation failed", 400, ["status: Status is required"]⟩ := by
  have hv : validateOrderStatus none = ⟨false, [⟨"status", "Status is required"⟩]⟩ := rfl
  simp [updateOrderStatus, hv]

lemma cancelOrder_demo_ofd :
    cancelOrder "u1" (demoOrderWith "Out for Delivery") = Except.ok (demoOrderWith "Cancelled") := by
  norm_num [cancelOrder, demoOrderWith, orderPreSave, orderItemsTotal, demoOrderItems, jsRound,
    demoDD]
  rfl

lemma updateOrderStatus_demo_direct :
    updateOrderStatus (demoOrderWith "Order Received") (some "Delivered") =
      Except.ok (demoOrderWith "Delivered") := by
  have hv : validateOrderStatus (some "Delivered") = ⟨true, []⟩ := rfl
  norm_num [updateOrderStatus, hv, demoOrderWith, orderPreSave, orderItemsTotal, demoOrderItems,
    jsRound, demoDD]
  decide

/-! ## Claims about the order lifecycle (C1, C2, C3) -/

/-- C1: the claim that `Cancelled` is reachable only from `Order Received` or
`Preparing` is false: user cancellation of an order that is `Out for
Delivery` succeeds and sets its status to `Cancelled` (`cancelOrder` rejects
only `Delivered` and `Cancelled`). -/
theorem c1_counterexample :
    (demoOrderWith "Out for Delivery").status = "Out for Delivery" ∧
    cancelOrder "u1" (demoOrderWith "Out for Delivery") = Except.ok (demoOrderWith "Cancelled") ∧
    (demoOrderWith "Cancelled").status = "Cancelled" :=
  ⟨rfl, cancelOrder_demo_ofd, rfl⟩

/-- C1 (amended): `Cancelled` is reachable exactly from the three non-terminal
states `Order Received`, `Preparing` and `Out for Delivery`: no operation
moves a `Delivered` or `Cancelled` order, a successful admin update or user
cancellation implies the prior status was one of the three, and the owner can
cancel from any of the three. -/
theorem c1_theorem :
    (∀ (caller : String) (o : Order) (r : Order),
        o.status = "Delivered" ∨ o.status = "Cancelled" → cancelOrder caller o ≠ Except.ok r) ∧
    (∀ (o : Order) (s : Option String) (r : Order), o.status ∈ validStatuses →
        updateOrderStatus o s = Except.ok r → r.status = "Cancelled" →
        o.status = "Order Received" ∨ o.status = "Preparing" ∨ o.status = "Out for Delivery") ∧
    (∀ (caller : String) (o : Order) (r : Order), o.status ∈ validStatuses →
        cancelOrder caller o = Except.ok r →
        o.status = "Order Received" ∨ o.status = "Preparing" ∨ o.status = "Out for Delivery") ∧
    (∀ (caller : String) (o : Order), o.userId = caller →
        o.status ≠ "Delivered" → o.status ≠ "Cancelled" →
        cancelOrder caller o = Except.ok (orderPreSave { o with status := "Cancelled" }) ∧
        (orderPreSave { o with status := "Cancelled" }).status = "Cancelled") := by
  refine ⟨?_, ?_, ?_, ?_⟩
  · intro caller o r h
    exact cancelOrder_locked h r
  · intro o s r hmem hok _
    rcases updateOrderStatus_ok_status hok with ⟨hd, hc⟩
    exact mem_validStatuses_not_terminal hmem hd hc
  · intro caller o r hmem hok
    rcases cancelOrder_ok_status hok with ⟨hd, hc⟩
    exact mem_validStatuses_not_terminal hmem hd hc
  · intro caller o hown hd hc
    exact ⟨cancelOrder_succeeds hown hd hc, by simp [orderPreSave]⟩

/-- C2: the claim that every status-update request whose target is not one of
the 5 canonical values fails with the message enumerating all 5 values is
false: the empty-string target (not a canonical value) fails with the
distinct message `Status is required` instead. -/
theorem c2_counterexample :
    "" ∉ validStatuses ∧
    updateOrderStatus (demoOrderWith "Order Received") (some "") =
      Except.error ⟨"Validation failed", 400, ["status: Status is required"]⟩ ∧
    "status: Status is required" ≠
      "status: Status must be one of: Order Received, Preparing, Out for Delivery, Delivered, Cancelled" :=
  ⟨by decide, updateOrderStatus_empty _, by decide⟩

/-- C2 (amended): an admin status update with a missing or empty target fails
with `Status is required`; a non-empty target outside the 5 canonical values
fails with the message enumerating all 5; a canonical target on a `Delivered`
or `Cancelled` order is rejected; otherwise the status is overwritten with
the target unconditionally — no forward-only ordering, e.g. `Order Received`
moves directly to `Delivered`.  Every failure path throws before the save,
leaving the order unchanged. -/
theorem c2_theorem :
    (∀ (o : Order) (s : String), s ≠ "" → s ∉ validStatuses →
        updateOrderStatus o (some s) = Except.error ⟨"Validation failed", 400,
          ["status: Status must be one of: Order Received, Preparing, Out for Delivery, Delivered, Cancelled"]⟩) ∧
    (∀ o : Order, updateOrderStatus o (some "") =
        Except.error ⟨"Validation failed", 400, ["status: Status is required"]⟩ ∧
      updateOrderStatus o none =
        Except.error ⟨"Validation failed", 400, ["status: Status is required"]⟩) ∧
    (∀ (o : Order) (s : String), s ∈ validStatuses →
        o.status = "Delivered" ∨ o.status = "Cancelled" →
        updateOrderStatus o (some s) =
          Except.error ⟨"Cannot update status of " ++ jsToLower o.status ++ " orders", 400, []⟩) ∧
    (∀ (o : Order) (s : String), s ∈ validStatuses →
        o.status ≠ "Delivered" → o.status ≠ "Cancelled" →
        updateOrderStatus o (some s) = Except.ok (orderPreSave { o with status := s }) ∧
        (orderPreSave { o with status := s }).status = s) ∧
    updateOrderStatus (demoOrderWith "Order Received") (some "Delivered") =
      Except.ok (demoOrderWith "Delivered") := by
  refine ⟨?_, ?_, ?_, ?_, updateOrderStatus_demo_direct⟩
  · intro o s hne h
    exact updateOrderStatus_invalid hne h
  · intro o
    exact ⟨updateOrderStatus_empty o, updateOrderStatus_none o⟩
  · intro o s hmem h
    exact updateOrderStatus_locked hmem h
  · intro o s hmem hd hc
    exact ⟨updateOrderStatus_succeeds hmem hd hc, by simp [orderPreSave]⟩

/-- C3: user cancellation of a found order fails with `Access denied` for a
non-owner, fails with `Cannot cancel delivered orders` when the status is
`Delivered`, fails with the distinct `Order is already cancelled` error (not
success) when the status is `Cancelled`, and in every other case succeeds
and sets the status to `Cancelled` — in particular from `Order Received`.
Each failure path throws before any write, leaving the order unchanged. -/
theorem c3_theorem :
    (∀ (caller : String) (o : Order), o.userId ≠ caller →
        cancelOrder caller o = Except.error ⟨"Access denied", 403, []⟩) ∧
    (∀ (caller : String) (o : Order), o.userId = caller → o.status = "Delivered" →
        cancelOrder caller o = Except.error ⟨"Cannot cancel delivered orders", 400, []⟩) ∧
    (∀ (caller : String) (o : Order), o.userId = caller → o.status = "Cancelled" →
        cancelOrder caller o = Except.error ⟨"Order is already cancelled", 400, []⟩) ∧
    (∀ (caller : String) (o : Order), o.userId = caller →
        o.status ≠ "Delivered" → o.status ≠ "Cancelled" →
        cancelOrder caller o = Except.ok (orderPreSave { o with status := "Cancelled" }) ∧
        (orderPreSave { o with status := "Cancelled" }).status = "Cancelled") ∧
    (∀ (caller : String) (o : Order), o.userId = caller → o.status = "Order Received" →
        cancelOrder caller o = Except.ok (orderPreSave { o with status := "Cancelled" }) ∧
        (orderPreSave { o with status := "Cancelled" }).status = "Cancelled") := by
  refine ⟨?_, ?_, ?_, ?_, ?_⟩
  · intro caller o h
    simp [cancelOrder, h]
  · intro caller o hown hD
    simp [cancelOrder, hown, hD]
  · intro caller o hown hC
    simp [cancelOrder, hown, hC]
  · intro caller o hown hd hc
    exact ⟨cancelOrder_succeeds hown hd hc, by simp [orderPreSave]⟩
  · intro caller o hown hor
    have hd : o.status ≠ "Delivered" := by simp [hor]
    have hc : o.status ≠ "Cancelled" := by simp [hor]
    exact ⟨cancelOrder_succeeds hown hd hc, by simp [orderPreSave]⟩

/-! ## Claims about menu-item validation (C6, C7) -/

lemma menuNameErrors_field {n : Option String} : ∀ e ∈ menuNameErrors n, e.field = "name" := by
  intro e he
  cases n with
  | none => simp [menuNameErrors] at he; simp [he]
  | some s =>
    simp only [menuNameErrors] at he
    split_ifs at he <;> simp_all

lemma menuDescriptionErrors_field {n : Option String} :
    ∀ e ∈ menuDescriptionErrors n, e.field = "description" := by
  intro e he
  cases n with
  | none => simp [menuDescriptionErrors] at he; simp [he]
  | some s =>
    simp only [menuDescriptionErrors] at he
    split_ifs at he <;> simp_all

lemma menuPriceErrors_field {p : PriceVal} : ∀ e ∈ menuPriceErrors p, e.field = "price" := by
  intro e he
  cases p with
  | absent => simp [menuPriceErrors] at he; simp [he]
  | nonNumber => simp [menuPriceErrors] at he; simp [he]
  | num v =>
    simp only [menuPriceErrors] at he
    split_ifs at he <;> simp_all

lemma menuImageErrors_field {n : Option String} : ∀ e ∈ menuImageErrors n, e.field = "image" := by
  intro e he
  cases n with
  | none => simp [menuImageErrors] at he; simp [he]
  | some s =>
    simp only [menuImageErrors] at he
    split_ifs at he <;> simp_all

lemma menuCategoryErrors_field {n : Option String} :
    ∀ e ∈ menuCategoryErrors n, e.field = "category" := by
  intro e he
  cases n with
  | none => simp [menuCategoryErrors] at he; simp [he]
  | some s =>
    simp only [menuCategoryErrors] at he
    split_ifs at he <;> simp_all

lemma filter_eq_nil_of_field_ne {l : List ValidationError} {f : String}
    (h : ∀ e ∈ l, e.field ≠ f) : l.filter (fun e => e.field == f) = [] := by
  rw [List.filter_eq_nil_iff]
  intro e he
  simpa using h e he

lemma filter_eq_self_of_field_eq {l : List ValidationError} {f : String}
    (h : ∀ e ∈ l, e.field = f) : l.filter (fun e => e.field == f) = l := by
  rw [List.filter_eq_self]
  intro e he
  simpa using h e he

/-- The category-field errors of `validateMenuItemInput` are exactly
`menuCategoryErrors` of the submitted category. -/
lemma validateMenuItemInput_category_filter (d : MenuItemData) :
    (validateMenuItemInput d).errors.filter (fun e => e.field == "category") =
      menuCategoryErrors d.category := by
  have h1 : (menuNameErrors d.name).filter (fun e => e.field == "category") = [] :=
    filter_eq_nil_of_field_ne (fun e he => by rw [menuNameErrors_field e he]; decide)
  have h2 : (menuDescriptionErrors d.description).filter (fun e => e.field == "category") = [] :=
    filter_eq_nil_of_field_ne (fun e he => by rw [menuDescriptionErrors_field e he]; decide)
  have h3 : (menuPriceErrors d.price).filter (fun e => e.field == "category") = [] :=
    filter_eq_nil_of_field_ne (fun e he => by rw [menuPriceErrors_field e he]; decide)
  have h4 : (menuImageErrors d.image).filter (fun e => e.field == "category") = [] :=
    filter_eq_nil_of_field_ne (fun e he => by rw [menuImageErrors_field e he]; decide)
  have h5 : (menuCategoryErrors d.category).filter (fun e => e.field == "category") =
      menuCategoryErrors d.category :=
    filter_eq_self_of_field_eq menuCategoryErrors_field
  simp [validateMenuItemInput, List.filter_append, h1, h2, h3, h4, h5]

lemma menuCategoryErrors_eq_nil_iff (c : String) :
    menuCategoryErrors (some c) = [] ↔ c ∈ validCategories := by
  constructor
  · intro h
    by_contra hmem
    have hc : validCategories.contains c = false := by simpa using hmem
    simp only [menuCategoryErrors, hc] at h
    split_ifs at h
    simp_all
  · intro h
    simp only [validCategories, List.mem_cons, List.mem_singleton, List.not_mem_nil,
      or_false] at h
    rcases h with h | h | h | h | h | h <;> subst h <;> decide

/-- C6: the category enumeration of `validateMenuItemInput` has 7 values is
false: the function accepts exactly the 6 values of `validCategories`, and
`Other` — the seventh value of the persistence schema's enum — is rejected
with the 6-value enumeration message, so no 7-element set of strings
characterises acceptance. -/
theorem c6_counterexample :
    (validateMenuItemInput { demoMenuItemData with category := some "Other" }).valid = false ∧
    (validateMenuItemInput { demoMenuItemData with category := some "Other" }).errors =
      [⟨"category", "Category must be one of: Pizza, Burgers, Pasta, Sides, Drinks, Desserts"⟩] ∧
    ¬ ∃ S : Finset String, S.card = 7 ∧ ∀ c : String,
      ((validateMenuItemInput { demoMenuItemData with category := some c }).errors.filter
        (fun e => e.field == "category") = []) ↔ c ∈ S := by
  refine ⟨by decide, by decide, ?_⟩
  rintro ⟨S, hcard, hS⟩
  have hmem : ∀ c : String, c ∈ S ↔ c ∈ validCategories := by
    intro c
    rw [← hS c, validateMenuItemInput_category_filter]
    exact menuCategoryErrors_eq_nil_iff c
  have hSeq : S = validCategories.toFinset := by
    ext c
    rw [hmem c, List.mem_toFinset]
  rw [hSeq] at hcard
  exact absurd hcard (by decide)

/-- C6 (amended): for every menu-item payload and submitted category string,
the category field produces no error exactly when the string is one of the 6
values of `validCategories` (`Pizza`, `Burgers`, `Pasta`, `Sides`, `Drinks`,
`Desserts`); the enumeration has 6 values, not 7 (`Other` exists only in the
persistence schema's enum). -/
theorem c6_theorem :
    (∀ (d : MenuItemData) (c : String),
        ((validateMenuItemInput { d with category := some c }).errors.filter
          (fun e => e.field == "category") = []) ↔ c ∈ validCategories) ∧
    validCategories = ["Pizza", "Burgers", "Pasta", "Sides", "Drinks", "Desserts"] ∧
    validCategories.length = 6 := by
  refine ⟨?_, rfl, rfl⟩
  intro d c
  rw [validateMenuItemInput_category_filter]
  exact menuCategoryErrors_eq_nil_iff c

/-- C7: menu-item price validation requires a number, ≥ 0, with at most two
decimal places judged by the pattern `^\d+(\.\d{1,2})?$` on the stringified
value: 12.999 (rendering "12.999") is rejected with exactly the message
`Price must have at most 2 decimal places`, 12.99 (rendering "12.99") is
accepted, any non-negative number whose rendering fails the pattern gets
that error, and for non-negative prices acceptance depends only on the
rendering, not on the numeric value (no epsilon comparison). -/
theorem c7_theorem :
    validateMenuItemInput demoMenuItemData999 =
      ⟨false, [⟨"price", "Price must have at most 2 decimal places"⟩]⟩ ∧
    validateMenuItemInput demoMenuItemData = ⟨true, []⟩ ∧
    (∀ (q : ℚ) (s : String), 0 ≤ q → decimalPattern s = false →
        menuPriceErrors (PriceVal.num ⟨q, s⟩) =
          [⟨"price", "Price must have at most 2 decimal places"⟩]) ∧
    (∀ (q q' : ℚ) (s : String), 0 ≤ q → 0 ≤ q' →
        menuPriceErrors (PriceVal.num ⟨q, s⟩) = menuPriceErrors (PriceVal.num ⟨q', s⟩)) ∧
    decimalPattern "12.999" = false ∧ decimalPattern "12.99" = true := by
  refine ⟨by decide, by decide, ?_, ?_, by decide, by decide⟩
  · intro q s hq hs
    simp [menuPriceErrors, not_lt.mpr hq, hs]
  · intro q q' s hq hq'
    simp [menuPriceErrors, not_lt.mpr hq, not_lt.mpr hq']

/-! ## Claim about admin-secret independence (C10) -/

lemma regNameErrors_field {n : Option String} : ∀ e ∈ regNameErrors n, e.field = "name" := by
  intro e he
  cases n with
  | none => simp [regNameErrors] at he; simp [he]
  | some s =>
    simp only [regNameErrors] at he
    split_ifs at he <;> simp_all

lemma regEmailErrors_field {n : Option String} : ∀ e ∈ regEmailErrors n, e.field = "email" := by
  intro e he
  cases n with
  | none => simp [regEmailErrors] at he; simp [he]
  | some s =>
    simp only [regEmailErrors] at he
    split_ifs at he <;> simp_all

lemma regPasswordErrors_field {n : Option String} :
    ∀ e ∈ regPasswordErrors n, e.field = "password" := by
  intro e he
  cases n with
  | none => simp [regPasswordErrors] at he; simp [he]
  | some s =>
    simp only [regPasswordErrors] at he
    split_ifs at he <;> simp_all

lemma regRoleErrors_field {n : Option String} : ∀ e ∈ regRoleErrors n, e.field = "role" := by
  intro e he
  cases n with
  | none => simp [regRoleErrors] at he; simp [he]
  | some s =>
    simp only [regRoleErrors] at he
    split_ifs at he <;> simp_all

lemma regAdminCodeErrors_of_not_admin {role code : Option String} {secret : String}
    (h : role ≠ some "admin") : regAdminCodeErrors role code secret = [] := by
  simp [regAdminCodeErrors, h]

/-- C10: when the submitted role is not exactly `admin`, the admin-secret
check never runs: the validation result is the same whatever the submitted
`adminSecretCode` is (present, absent or mismatching), and no
`adminSecretCode` error is produced. -/
theorem c10_theorem (d : RegisterData) (secret : String) (a1 a2 : Option String)
    (h : d.role ≠ some "admin") :
    validateRegisterInput { d with adminSecretCode := a1 } secret =
      validateRegisterInput { d with adminSecretCode := a2 } secret ∧
    ∀ e ∈ (validateRegisterInput { d with adminSecretCode := a1 } secret).errors,
      e.field ≠ "adminSecretCode" := by
  have ha1 : regAdminCodeErrors d.role a1 secret = [] := regAdminCodeErrors_of_not_admin h
  have ha2 : regAdminCodeErrors d.role a2 secret = [] := regAdminCodeErrors_of_not_admin h
  constructor
  · simp [validateRegisterInput, ha1, ha2]
  · intro e he
    simp only [validateRegisterInput, ha1, List.append_nil, List.mem_append] at he
    rcases he with ((he | he) | he) | he
    · rw [regNameErrors_field e he]; decide
    · rw [regEmailErrors_field e he]; decide
    · rw [regPasswordErrors_field e he]; decide
    · rw [regRoleErrors_field e he]; decide

/-! ## Claims about order creation (C4, C5) -/

lemma createOrder_ok_elim {u : String} {items : List ClientItem} {dd : DeliveryDetails}
    {menu : List MenuItem} {o : Order} (hok : createOrder u items dd menu = Except.ok o) :
    ∃ v, validateOrderInput (ItemsVal.arr (items.map toJSItem)) (toJSDD dd) = Except.ok v ∧
      v.valid = true ∧
      (menu.filter (fun m =>
        (items.map (fun it => it.menuItemId)).contains m.id)).length = items.length ∧
      ¬ ((jsRound (orderItemsTotal (items.map (enrichItem (menu.filter (fun m =>
          (items.map (fun it => it.menuItemId)).contains m.id)))) * 100) : ℚ) / 100 ≤ 0) ∧
      o = orderPreSave
        { userId := u
          items := items.map (enrichItem (menu.filter (fun m =>
            (items.map (fun it => it.menuItemId)).contains m.id)))
          totalAmount := (jsRound (orderItemsTotal (items.map (enrichItem (menu.filter (fun m =>
            (items.map (fun it => it.menuItemId)).contains m.id)))) * 100) : ℚ) / 100
          deliveryDetails := ⟨jsTrim dd.name, jsTrim dd.address, jsTrim dd.phone⟩
          status := "Order Received" } := by
  unfold createOrder at hok
  cases hv : validateOrderInput (ItemsVal.arr (items.map toJSItem)) (toJSDD dd) with
  | error e =>
    rw [hv] at hok
    exact Except.noConfusion hok
  | ok v =>
    rw [hv] at hok
    simp only [] at hok
    split_ifs at hok with h1 h2 h3 h4
    exact ⟨v, rfl, by simpa using h1, by omega, h4, (Except.ok.inj hok).symm⟩

lemma itemObjErrors_nil_quantity {i : Nat} {m n : Option String} {p q : Option ℚ}
    (h : itemObjErrors i m n p q = []) : ∃ qv, q = some qv ∧ (1 : ℚ) ≤ qv := by
  cases q with
  | none =>
    exfalso
    unfold itemObjErrors at h
    simp [List.append_eq_nil] at h
  | some qv =>
    refine ⟨qv, rfl, ?_⟩
    unfold itemObjErrors at h
    rcases List.append_eq_nil.mp h with ⟨-, hq⟩
    simp only [] at hq
    have h1 : ¬ qv < 1 := by
      intro hlt
      rw [if_pos hlt] at hq
      exact absurd hq (by simp)
    exact not_lt.mp h1

lemma itemsLoop_ok_quantities :
    ∀ (items : List ClientItem) (i : Nat) (errs : List ValidationError),
      itemsLoop i (items.map toJSItem) = Except.ok errs → errs = [] →
      ∀ it ∈ items, (1 : ℚ) ≤ it.quantity := by
  intro items
  induction items with
  | nil => intro i errs _ _ it hit; exact absurd hit (by simp)
  | cons a rest ih =>
    intro i errs hloop hnil it hit
    simp only [List.map_cons, toJSItem, itemsLoop] at hloop
    cases hrec : itemsLoop (i + 1) (rest.map toJSItem) with
    | error e =>
      rw [hrec] at hloop
      exact Except.noConfusion hloop
    | ok tail =>
      rw [hrec] at hloop
      have herrs : itemObjErrors i (some a.menuItemId) (some a.name)
          (some a.price) (some a.quantity) ++ tail = errs := Except.ok.inj hloop
      rw [hnil] at herrs
      rcases List.append_eq_nil.mp herrs with ⟨hhead, htail⟩
      rcases List.mem_cons.mp hit with hik | hmem
      · obtain ⟨qv, hq, hge⟩ := itemObjErrors_nil_quantity hhead
        rw [hik]
        exact (Option.some.inj hq) ▸ hge
      · exact ih (i + 1) tail (by rw [hrec]) htail it hmem

/-- A valid order submission has every line quantity at least 1. -/
lemma validateOrderInput_valid_quantities {items : List ClientItem} {dd : DeliveryDetails}
    {v : ValidationResult}
    (hv : validateOrderInput (ItemsVal.arr (items.map toJSItem)) (toJSDD dd) = Except.ok v)
    (hvalid : v.valid = true) : ∀ it ∈ items, (1 : ℚ) ≤ it.quantity := by
  cases items with
  | nil => intro it hit; exact absurd hit (by simp)
  | cons a rest =>
    unfold validateOrderInput itemsErrors at hv
    simp only [List.map_cons] at hv
    cases hloop : itemsLoop 0 (toJSItem a :: rest.map toJSItem) with
    | error e =>
      rw [hloop] at hv
      exact Except.noConfusion hv
    | ok ie =>
      rw [hloop] at hv
      have hveq : (⟨(ie ++ ddErrors (toJSDD dd)).isEmpty, ie ++ ddErrors (toJSDD dd)⟩ :
          ValidationResult) = v := Except.ok.inj hv
      rw [← hveq] at hvalid
      simp only [List.isEmpty_iff, List.append_eq_nil] at hvalid
      have : itemsLoop 0 ((a :: rest).map toJSItem) = Except.ok ie := by
        simpa using hloop
      exact itemsLoop_ok_quantities (a :: rest) 0 ie this hvalid.1

lemma orderItemsTotal_eq_sum (l : List OrderItem) :
    orderItemsTotal l = (l.map (fun it => it.price * it.quantity)).sum := by
  have key : ∀ (l : List OrderItem) (a : ℚ),
      l.foldl (fun sum item => sum + item.price * item.quantity) a =
        a + (l.map (fun it => it.price * it.quantity)).sum := by
    intro l
    induction l with
    | nil => intro a; simp
    | cons x xs ih =>
      intro a
      simp only [List.foldl_cons, List.map_cons, List.sum_cons, ih, add_assoc]
  simpa [orderItemsTotal] using key l 0

lemma jsRound_eq_away {x : ℚ} (hx : 0 ≤ x) : jsRound x = roundHalfAwayFromZero x := by
  simp [jsRound, roundHalfAwayFromZero, hx]

/-- On success, `createOrder` persists `totalAmount` as the sum of
`price × quantity` over the persisted (enriched) lines, rounded to 2 decimal
places half-away-from-zero (for the non-negative totals arising from
non-negative menu prices, JS `Math.round` coincides with it), and that
persisted total is strictly positive. -/
lemma createOrder_total_eq {u : String} {items : List ClientItem} {dd : DeliveryDetails}
    {menu : List MenuItem} {o : Order} (hok : createOrder u items dd menu = Except.ok o)
    (hmenu : ∀ m ∈ menu, 0 ≤ m.price) :
    o.totalAmount =
      (roundHalfAwayFromZero ((o.items.map (fun it => it.price * it.quantity)).sum * 100) : ℚ)
        / 100 ∧
    0 < o.totalAmount := by
  obtain ⟨v, hv, hvalid, hlen, hpos, ho⟩ := createOrder_ok_elim hok
  have hqty := validateOrderInput_valid_quantities hv hvalid
  have hitems : o.items = items.map (enrichItem (menu.filter (fun m =>
      (items.map (fun it => it.menuItemId)).contains m.id))) := by
    rw [ho]; rfl
  have htot : o.totalAmount = (jsRound (orderItemsTotal o.items * 100) : ℚ) / 100 := by
    rw [ho]; rfl
  have hS : 0 ≤ (o.items.map (fun it => it.price * it.quantity)).sum := by
    apply List.sum_nonneg
    intro x hx
    rw [hitems, List.map_map] at hx
    obtain ⟨item, hitem, rfl⟩ := List.mem_map.mp hx
    simp only [Function.comp, enrichItem]
    apply mul_nonneg
    · cases hfind : (menu.filter (fun m =>
          (items.map (fun it => it.menuItemId)).contains m.id)).find?
            (fun mi => mi.id == item.menuItemId) with
      | none => simp [hfind]
      | some m =>
        have hm : m ∈ menu :=
          (List.mem_filter.mp (List.mem_of_find?_eq_some hfind)).1
        simpa [hfind] using hmenu m hm
    · exact le_trans (by norm_num) (hqty item hitem)
  have hoE : o.totalAmount = (jsRound (orderItemsTotal (items.map (enrichItem (menu.filter
      (fun m => (items.map (fun it => it.menuItemId)).contains m.id)))) * 100) : ℚ) / 100 := by
    rw [htot, hitems]
  constructor
  · rw [htot, orderItemsTotal_eq_sum, jsRound_eq_away (mul_nonneg hS (by norm_num))]
  · rw [hoE]
    exact not_le.mp hpos

lemma createOrder_demo :
    createOrder "u1" demoItems demoDD demoMenu = Except.ok (demoOrderWith "Order Received") := by
  have h1 : List.find? (fun mi => mi.id == "m1")
      [({ id := "m1", name := "Margherita Pizza", price := 10, available := true } : MenuItem),
       { id := "m2", name := "Garlic Bread", price := 5, available := true }] =
      some { id := "m1", name := "Margherita Pizza", price := 10, available := true } := rfl
  have h2 : List.find? (fun mi => mi.id == "m2")
      [({ id := "m1", name := "Margherita Pizza", price := 10, available := true } : MenuItem),
       { id := "m2", name := "Garlic Bread", price := 5, available := true }] =
      some { id := "m2", name := "Garlic Bread", price := 5, available := true } := rfl
  have ht1 : jsTrim "John Doe" = "John Doe" := rfl
  have ht2 : jsTrim "123 Main Street, Springfield" = "123 Main Street, Springfield" := rfl
  have ht3 : jsTrim "1234567890" = "1234567890" := rfl
  simp +decide only [createOrder, validateOrderInput, itemsErrors, itemsLoop, itemObjErrors,
    ddErrors, demoItems, demoDD, demoMenu, toJSItem, toJSDD, strFalsy, isValidPhone, isPhoneChar,
    orderPreSave, orderItemsTotal, enrichItem, demoOrderItems, demoOrderWith, itemField]
  norm_num [jsRound, enrichItem, orderItemsTotal, h1, h2, ht1, ht2, ht3]

lemma createOrder_demo_tampered :
    createOrder "u1" demoItemsTampered demoDD demoMenu =
      createOrder "u1" demoItems demoDD demoMenu := by
  have h1 : List.find? (fun mi => mi.id == "m1")
      [({ id := "m1", name := "Margherita Pizza", price := 10, available := true } : MenuItem),
       { id := "m2", name := "Garlic Bread", price := 5, available := true }] =
      some { id := "m1", name := "Margherita Pizza", price := 10, available := true } := rfl
  have h2 : List.find? (fun mi => mi.id == "m2")
      [({ id := "m1", name := "Margherita Pizza", price := 10, available := true } : MenuItem),
       { id := "m2", name := "Garlic Bread", price := 5, available := true }] =
      some { id := "m2", name := "Garlic Bread", price := 5, available := true } := rfl
  simp +decide only [createOrder, validateOrderInput, itemsErrors, itemsLoop, itemObjErrors,
    ddErrors, demoItems, demoItemsTampered, demoDD, demoMenu, toJSItem, toJSDD, strFalsy,
    isValidPhone, isPhoneChar, orderPreSave, orderItemsTotal, enrichItem, itemField]
  norm_num [jsRound, enrichItem, orderItemsTotal, h1, h2]

lemma createOrder_free :
    createOrder "u1" freeItems demoDD freeMenu =
      Except.error ⟨"Order total must be greater than 0", 400, []⟩ := by
  have h0 : List.find? (fun mi => mi.id == "m0")
      [({ id := "m0", name := "Tap Water", price := 0, available := true } : MenuItem)] =
      some { id := "m0", name := "Tap Water", price := 0, available := true } := rfl
  simp +decide only [createOrder, validateOrderInput, itemsErrors, itemsLoop, itemObjErrors,
    ddErrors, freeItems, demoDD, freeMenu, toJSItem, toJSDD, strFalsy,
    isValidPhone, isPhoneChar, orderPreSave, orderItemsTotal, enrichItem, itemField]
  norm_num [jsRound, enrichItem, orderItemsTotal, h0]

/-- C4: for every successful order creation over a menu with non-negative
prices (the persistence schema enforces `min: 0`), the persisted
`totalAmount` equals the sum of `price × quantity` over the persisted
(enriched) lines rounded to 2 decimal places half-away-from-zero, and is
strictly positive (a rounded total ≤ 0 is rejected); on the demo menu the
items `[{price 10, qty 2}, {price 5, qty 3}]` total exactly 35, and an order
whose rounded total is 0 is rejected with the total-must-be-positive error. -/
theorem c4_theorem :
    (∀ (u : String) (items : List ClientItem) (dd : DeliveryDetails) (menu : List MenuItem)
        (o : Order), createOrder u items dd menu = Except.ok o → (∀ m ∈ menu, 0 ≤ m.price) →
        o.totalAmount =
          (roundHalfAwayFromZero ((o.items.map (fun it => it.price * it.quantity)).sum * 100) : ℚ)
            / 100 ∧
        0 < o.totalAmount) ∧
    createOrder "u1" demoItems demoDD demoMenu = Except.ok (demoOrderWith "Order Received") ∧
    (demoOrderWith "Order Received").totalAmount = 35 ∧
    createOrder "u1" freeItems demoDD freeMenu =
      Except.error ⟨"Order total must be greater than 0", 400, []⟩ :=
  ⟨fun _ _ _ _ _ hok hmenu => createOrder_total_eq hok hmenu,
   createOrder_demo, rfl, createOrder_free⟩

/-- When the fetched documents are as many as the requested ids and the
menu's ids are distinct (MongoDB `_id`s are unique), every requested id is
found by the enrichment lookup. -/
lemma find_id_of_filter_length_eq {menu : List MenuItem} {ids : List String}
    (hnodup : (menu.map (fun m => m.id)).Nodup)
    (hlen : (menu.filter (fun m => ids.contains m.id)).length = ids.length) :
    ∀ a ∈ ids, ∃ m, (menu.filter (fun m => ids.contains m.id)).find? (fun mi => mi.id == a) =
      some m ∧ m ∈ menu ∧ m.id = a := by
  intro a ha
  have hsub : (menu.filter (fun m => ids.contains m.id)).map (fun m => m.id) ⊆ ids := by
    intro x hx
    obtain ⟨m, hm, rfl⟩ := List.mem_map.mp hx
    have := (List.mem_filter.mp hm).2
    simpa using this
  have hnd : ((menu.filter (fun m => ids.contains m.id)).map (fun m => m.id)).Nodup :=
    List.Nodup.sublist (List.Sublist.map _ (List.filter_sublist menu)) hnodup
  have hsp : List.Subperm ((menu.filter (fun m => ids.contains m.id)).map (fun m => m.id)) ids :=
    List.subperm_of_subset hnd hsub
  have hlen2 : ids.length ≤
      ((menu.filter (fun m => ids.contains m.id)).map (fun m => m.id)).length := by
    rw [List.length_map, hlen]
  have hperm := hsp.perm_of_length_le hlen2
  have haid : a ∈ (menu.filter (fun m => ids.contains m.id)).map (fun m => m.id) :=
    hperm.mem_iff.mpr ha
  obtain ⟨m, hmdocs, hmid⟩ := List.mem_map.mp haid
  have hsome : ((menu.filter (fun m => ids.contains m.id)).find?
      (fun mi => mi.id == a)).isSome := by
    rw [List.find?_isSome]
    exact ⟨m, hmdocs, by simp [hmid]⟩
  obtain ⟨m', hm'⟩ := Option.isSome_iff_exists.mp hsome
  refine ⟨m', hm', ?_, ?_⟩
  · exact (List.mem_filter.mp (List.mem_of_find?_eq_some hm')).1
  · have := List.find?_some hm'
    simpa using this

/-- On success over a menu with distinct ids, every persisted line's name
and price come from the menu item its `menuItemId` references. -/
lemma createOrder_items_from_menu {u : String} {items : List ClientItem} {dd : DeliveryDetails}
    {menu : List MenuItem} {o : Order}
    (hnodup : (menu.map (fun m => m.id)).Nodup)
    (hok : createOrder u items dd menu = Except.ok o) :
    ∀ it ∈ o.items, ∃ m ∈ menu, m.id = it.menuItemId ∧ it.name = m.name ∧ it.price = m.price := by
  obtain ⟨v, hv, hvalid, hlen, hpos, ho⟩ := createOrder_ok_elim hok
  intro it hit
  have hitems : o.items = items.map (enrichItem (menu.filter (fun m =>
      (items.map (fun it => it.menuItemId)).contains m.id))) := by
    rw [ho]; rfl
  rw [hitems] at hit
  obtain ⟨item, hitem, rfl⟩ := List.mem_map.mp hit
  have hlen' : (menu.filter (fun m =>
      (items.map (fun it => it.menuItemId)).contains m.id)).length =
      (items.map (fun it => it.menuItemId)).length := by
    rw [List.length_map]; exact hlen
  have ha : item.menuItemId ∈ items.map (fun it => it.menuItemId) :=
    List.mem_map.mpr ⟨item, hitem, rfl⟩
  obtain ⟨m, hfind, hm_mem, hmid⟩ := find_id_of_filter_length_eq hnodup hlen' _ ha
  refine ⟨m, hm_mem, hmid, ?_, ?_⟩
  · simp only [enrichItem]
    rw [hfind]
    rfl
  · simp only [enrichItem]
    rw [hfind]
    rfl

/-- Two creation requests that agree on every line's `(menuItemId, quantity)`
— whatever the client-submitted names and prices — produce the same
persisted order whenever both succeed. -/
lemma createOrder_idqty {u : String} {itemsA itemsB : List ClientItem} {dd : DeliveryDetails}
    {menu : List MenuItem} {oA oB : Order}
    (hpairs : itemsA.map (fun it => (it.menuItemId, it.quantity)) =
      itemsB.map (fun it => (it.menuItemId, it.quantity)))
    (hA : createOrder u itemsA dd menu = Except.ok oA)
    (hB : createOrder u itemsB dd menu = Except.ok oB) : oA = oB := by
  obtain ⟨vA, hvA, hvalidA, hlenA, hposA, hoA⟩ := createOrder_ok_elim hA
  obtain ⟨vB, hvB, hvalidB, hlenB, hposB, hoB⟩ := createOrder_ok_elim hB
  have hids : itemsA.map (fun it => it.menuItemId) = itemsB.map (fun it => it.menuItemId) := by
    have := congrArg (List.map Prod.fst) hpairs
    simpa [List.map_map, Function.comp] using this
  have henrich : ∀ M : List MenuItem, itemsA.map (enrichItem M) = itemsB.map (enrichItem M) := by
    intro M
    have := congrArg (List.map (fun p : String × ℚ =>
      ({ menuItemId := p.1
         name := ((M.find? (fun mi => mi.id == p.1)).map (fun m => m.name)).getD ""
         price := ((M.find? (fun mi => mi.id == p.1)).map (fun m => m.price)).getD 0
         quantity := p.2 } : OrderItem))) hpairs
    simpa [List.map_map, Function.comp, enrichItem] using this
  rw [hoA, hoB, hids, henrich]

/-- C5: the persisted lines and total are independent of the client-submitted
item names and prices: two successful creation requests agreeing on every
line's `(menuItemId, quantity)` persist the same order; over a menu with
distinct ids every persisted line's name and price come from the referenced
menu item (the server price is persisted, never the client's); and a demo
request with tampered client names/prices creates exactly the same order as
the honest request. -/
theorem c5_theorem :
    (∀ (u : String) (itemsA itemsB : List ClientItem) (dd : DeliveryDetails)
        (menu : List MenuItem) (oA oB : Order),
        itemsA.map (fun it => (it.menuItemId, it.quantity)) =
          itemsB.map (fun it => (it.menuItemId, it.quantity)) →
        createOrder u itemsA dd menu = Except.ok oA →
        createOrder u itemsB dd menu = Except.ok oB → oA = oB) ∧
    (∀ (u : String) (items : List ClientItem) (dd : DeliveryDetails) (menu : List MenuItem)
        (o : Order), (menu.map (fun m => m.id)).Nodup →
        createOrder u items dd menu = Except.ok o →
        ∀ it ∈ o.items, ∃ m ∈ menu, m.id = it.menuItemId ∧ it.name = m.name ∧
          it.price = m.price) ∧
    createOrder "u1" demoItemsTampered demoDD demoMenu =
      createOrder "u1" demoItems demoDD demoMenu ∧
    demoItemsTampered ≠ demoItems :=
  ⟨fun _ _ _ _ _ _ _ hpairs hA hB => createOrder_idqty hpairs hA hB,
   fun _ _ _ _ _ hnodup hok => createOrder_items_from_menu hnodup hok,
   createOrder_demo_tampered, by decide⟩

/-! ## Claim about validator totality and completeness (C8) -/

lemma itemsLoop_ok_of_no_null :
    ∀ (l : List JItem) (i : Nat), (∀ it ∈ l, it ≠ JItem.jnull ∧ it ≠ JItem.jundef) →
      ∃ errs, itemsLoop i l = Except.ok errs := by
  intro l
  induction l with
  | nil => intro i _; exact ⟨[], rfl⟩
  | cons x rest ih =>
    intro i hl
    cases x with
    | jnull => exact absurd rfl (hl JItem.jnull (by simp)).1
    | jundef => exact absurd rfl (hl JItem.jundef (by simp)).2
    | jobj m n p q =>
      obtain ⟨tail, htail⟩ := ih (i + 1) (fun it hit => hl it (by simp [hit]))
      exact ⟨itemObjErrors i m n p q ++ tail, by simp [itemsLoop, htail]⟩

lemma itemsLoop_complete :
    ∀ (l : List JItem) (i : Nat) (errs : List ValidationError),
      itemsLoop i l = Except.ok errs →
      ∀ (j : Nat) (m n : Option String) (p q : Option ℚ),
        l.get? j = some (JItem.jobj m n p q) →
        ∀ e ∈ itemObjErrors (i + j) m n p q, e ∈ errs := by
  intro l
  induction l with
  | nil =>
    intro i errs _ j m n p q hj
    rw [List.get?_nil] at hj
    exact absurd hj (by simp)
  | cons x rest ih =>
    intro i errs hloop j m n p q hj e he
    cases x with
    | jnull => exact Except.noConfusion hloop
    | jundef => exact Except.noConfusion hloop
    | jobj m0 n0 p0 q0 =>
      simp only [itemsLoop] at hloop
      cases hrec : itemsLoop (i + 1) rest with
      | error er =>
        rw [hrec] at hloop
        exact Except.noConfusion hloop
      | ok tail =>
        rw [hrec] at hloop
        have herrs : itemObjErrors i m0 n0 p0 q0 ++ tail = errs := Except.ok.inj hloop
        cases j with
        | zero =>
          have hx : JItem.jobj m0 n0 p0 q0 = JItem.jobj m n p q := by
            simpa using hj
          injection hx with h1 h2 h3 h4
          subst h1
          subst h2
          subst h3
          subst h4
          rw [← herrs]
          apply List.mem_append_left
          simpa using he
        | succ j' =>
          have hj' : rest.get? j' = some (JItem.jobj m n p q) := by
            simpa using hj
          have hidx : i + (j' + 1) = (i + 1) + j' := by omega
          rw [hidx] at he
          rw [← herrs]
          exact List.mem_append_right _ (ih (i + 1) tail hrec j' m n p q hj' e he)

lemma itemObjErrors_field {i : Nat} {m n : Option String} {p q : Option ℚ} :
    ∀ e ∈ itemObjErrors i m n p q,
      e.field ∈ [itemField i "menuItemId", itemField i "name", itemField i "price",
        itemField i "quantity"] := by
  intro e he
  unfold itemObjErrors at he
  rcases List.mem_append.mp he with he | he
  · rcases List.mem_append.mp he with he | he
    · rcases List.mem_append.mp he with he | he
      · split_ifs at he <;> simp_all
      · split_ifs at he <;> simp_all
    · cases p with
      | none => simp_all
      | some pv =>
        simp only [] at he
        split_ifs at he <;> simp_all
  · cases q with
    | none => simp_all
    | some qv =>
      simp only [] at he
      split_ifs at he <;> simp_all

/-- C8: the claim that every validation function never throws on every
untyped input is false: `validateOrderInput` with an items array containing
`null` throws a `TypeError` (property access on `null` in the `forEach`
callback), while a well-formed one-line submission returns a result. -/
theorem c8_counterexample :
    validateOrderInput (ItemsVal.arr [JItem.jnull]) demoJSDD = Except.error () ∧
    validateOrderInput (ItemsVal.arr [demoJItem]) demoJSDD = Except.ok ⟨true, []⟩ :=
  ⟨rfl, by decide⟩

/-- C8 (amended): on inputs whose items-array elements are objects (no
`null`/`undefined` elements), `validateOrderInput` never throws; every result
has `valid` true exactly when the error list is empty, contains every
delivery-details error and every error of every item's independently
evaluated rules (not fail-fast), with per-item errors indexed `items[i].f`;
and `validateRegisterInput` returns the complete concatenation of its five
independent field checks. -/
theorem c8_theorem :
    (∀ (l : List JItem) (dd : DDVal), (∀ it ∈ l, it ≠ JItem.jnull ∧ it ≠ JItem.jundef) →
        ∃ r, validateOrderInput (ItemsVal.arr l) dd = Except.ok r) ∧
    (∀ (l : List JItem) (dd : DDVal) (r : ValidationResult),
        validateOrderInput (ItemsVal.arr l) dd = Except.ok r →
        (r.valid = true ↔ r.errors = []) ∧
        (∀ e ∈ ddErrors dd, e ∈ r.errors) ∧
        (∀ (j : Nat) (m n : Option String) (p q : Option ℚ),
          l.get? j = some (JItem.jobj m n p q) →
          ∀ e ∈ itemObjErrors j m n p q, e ∈ r.errors)) ∧
    (∀ (i : Nat) (m n : Option String) (p q : Option ℚ),
        ∀ e ∈ itemObjErrors i m n p q,
        e.field ∈ [itemField i "menuItemId", itemField i "name", itemField i "price",
          itemField i "quantity"]) ∧
    (∀ (d : RegisterData) (secret : String),
        (validateRegisterInput d secret).errors =
          regNameErrors d.name ++ regEmailErrors d.email ++ regPasswordErrors d.password ++
            regRoleErrors d.role ++ regAdminCodeErrors d.role d.adminSecretCode secret ∧
        ((validateRegisterInput d secret).valid = true ↔
          (validateRegisterInput d secret).errors = [])) := by
  refine ⟨?_, ?_, ?_, ?_⟩
  · intro l dd hl
    cases l with
    | nil => exact ⟨⟨false, [⟨"items", "Order must contain at least one item"⟩] ++ ddErrors dd⟩,
        by simp [validateOrderInput, itemsErrors]⟩
    | cons x rest =>
      obtain ⟨errs, herrs⟩ := itemsLoop_ok_of_no_null (x :: rest) 0 hl
      refine ⟨⟨(errs ++ ddErrors dd).isEmpty, errs ++ ddErrors dd⟩, ?_⟩
      simp only [validateOrderInput, itemsErrors]
      rw [herrs]
  · intro l dd r hok
    unfold validateOrderInput at hok
    cases hie : itemsErrors (ItemsVal.arr l) with
    | error er =>
      rw [hie] at hok
      exact Except.noConfusion hok
    | ok ie =>
      rw [hie] at hok
      have hr : (⟨(ie ++ ddErrors dd).isEmpty, ie ++ ddErrors dd⟩ : ValidationResult) = r :=
        Except.ok.inj hok
      refine ⟨?_, ?_, ?_⟩
      · rw [← hr]
        simp [List.isEmpty_iff]
      · intro e hedd
        rw [← hr]
        exact List.mem_append_right _ hedd
      · intro j m n p q hj e he
        rw [← hr]
        apply List.mem_append_left
        cases l with
        | nil =>
          rw [List.get?_nil] at hj
          exact absurd hj (by simp)
        | cons x rest =>
          have hloop : itemsLoop 0 (x :: rest) = Except.ok ie := by
            simpa [itemsErrors] using hie
          have := itemsLoop_complete (x :: rest) 0 ie hloop j m n p q hj e
          rw [Nat.zero_add] at this
          exact this he
  · intro i m n p q e he
    exact itemObjErrors_field e he
  · intro d secret
    exact ⟨rfl, by simp [validateRegisterInput, List.isEmpty_iff]⟩

/-- C10 witness: a concrete user-role registration, with the secret code
absent in one run and wrong in the other, validates identically and without
any `adminSecretCode` error. -/
theorem c10_witness :
    validateRegisterInput ⟨some "Jo", some "jo@example.com", some "secret1", some "user", none⟩
        "configured-code" =
      validateRegisterInput ⟨some "Jo", some "jo@example.com", some "secret1", some "user",
        some "wrong-code"⟩ "configured-code" ∧
    ∀ e ∈ (validateRegisterInput ⟨some "Jo", some "jo@example.com", some "secret1", some "user",
        none⟩ "configured-code").errors, e.field ≠ "adminSecretCode" :=
  c10_theorem ⟨some "Jo", some "jo@example.com", some "secret1", some "user", none⟩
    "configured-code" none (some "wrong-code") (by decide)

/-! ## Claim about email validation (C9) -/

lemma mem_clsRE {cs : List Char} {l : List Char} :
    l ∈ (clsRE cs).matches' ↔ ∃ c ∈ cs, l = [c] := by
  induction cs with
  | nil =>
    rw [show clsRE [] = RegularExpression.zero from rfl, RegularExpression.matches']
    constructor
    · intro h
      exact absurd h (Language.not_mem_zero l)
    · rintro ⟨c, hc, -⟩
      exact absurd hc (List.not_mem_nil c)
  | cons c cs ih =>
    simp only [clsRE, List.foldr_cons] at ih ⊢
    rw [RegularExpression.matches']
    constructor
    · intro h
      rcases (Language.mem_add _ _ _).mp h with h | h
      · rw [RegularExpression.matches'] at h
        exact ⟨c, by simp, by simpa using h⟩
      · obtain ⟨c', hc', rfl⟩ := ih.mp h
        exact ⟨c', by simp [hc'], rfl⟩
    · rintro ⟨c', hc', rfl⟩
      apply (Language.mem_add _ _ _).mpr
      rcases List.mem_cons.mp hc' with rfl | hmem
      · left
        rw [RegularExpression.matches']
        exact rfl
      · right
        exact ih.mpr ⟨c', hmem, rfl⟩

lemma onlyChars_clsRE {p : Char → Bool} {cs : List Char} (h : ∀ c ∈ cs, p c = true) :
    onlyChars p (clsRE cs) := by
  induction cs with
  | nil => simp [clsRE, onlyChars]
  | cons c cs ih =>
    simp only [clsRE, List.foldr_cons]
    exact ⟨h c (by simp), ih (fun c' hc' => h c' (by simp [hc']))⟩

lemma matches_onlyChars {p : Char → Bool} :
    ∀ (r : RegularExpression Char), onlyChars p r →
      ∀ l ∈ r.matches', ∀ c ∈ l, p c = true := by
  intro r
  induction r with
  | zero =>
    intro _ l hl
    simp [RegularExpression.matches'] at hl
  | epsilon =>
    intro _ l hl
    rw [RegularExpression.matches', Language.mem_one] at hl
    subst hl
    simp
  | char a =>
    intro hp l hl c hc
    rw [RegularExpression.matches'] at hl
    have : l = [a] := by simpa using hl
    subst this
    have : c = a := by simpa using hc
    subst this
    exact hp
  | plus r s ihr ihs =>
    intro hp l hl
    rw [RegularExpression.matches'] at hl
    rcases (Language.mem_add _ _ _).mp hl with h | h
    · exact ihr hp.1 l h
    · exact ihs hp.2 l h
  | comp r s ihr ihs =>
    intro hp l hl c hc
    rw [RegularExpression.matches'] at hl
    obtain ⟨a, ha, b, hb, rfl⟩ := Language.mem_mul.mp hl
    rcases List.mem_append.mp hc with h | h
    · exact ihr hp.1 a ha c h
    · exact ihs hp.2 b hb c h
  | star r ihr =>
    intro hp l hl c hc
    rw [RegularExpression.matches'] at hl
    obtain ⟨L, rfl, hL⟩ := Language.mem_kstar.mp hl
    obtain ⟨y, hyL, hcy⟩ := List.mem_flatten.mp hc
    exact ihr hp y (hL y hyL) c hcy

lemma onlyChars_emailRE : onlyChars emailChar emailRE := by
  have hw : onlyChars emailChar wcls :=
    onlyChars_clsRE (by decide)
  have hsep : onlyChars emailChar sepOpt :=
    ⟨trivial, onlyChars_clsRE (by decide)⟩
  have hwplus : onlyChars emailChar wplus := ⟨hw, hw⟩
  have hlocal : onlyChars emailChar localPart := ⟨hwplus, hsep, hwplus⟩
  have hw23 : onlyChars emailChar w23 := ⟨hw, hw, trivial, hw⟩
  have htld : onlyChars emailChar tldGroup := ⟨(by decide : emailChar '.' = true), hw23⟩
  exact ⟨hlocal, (by decide : emailChar '@' = true), hlocal, htld, htld⟩

lemma wplus_ne_nil {l : List Char} (h : l ∈ wplus.matches') : l ≠ [] := by
  rw [wplus, RegularExpression.matches'] at h
  obtain ⟨a, ha, b, _, rfl⟩ := Language.mem_mul.mp h
  obtain ⟨c, -, rfl⟩ := mem_clsRE.mp ha
  simp

lemma localPart_ne_nil {l : List Char} (h : l ∈ localPart.matches') : l ≠ [] := by
  rw [localPart, RegularExpression.matches'] at h
  obtain ⟨a, ha, b, -, rfl⟩ := Language.mem_mul.mp h
  have := wplus_ne_nil ha
  simp [this]

lemma tldGroup_head_dot {l : List Char} (h : l ∈ tldGroup.matches') :
    ∃ w, l = '.' :: w := by
  rw [tldGroup, RegularExpression.matches'] at h
  obtain ⟨a, ha, b, -, rfl⟩ := Language.mem_mul.mp h
  rw [RegularExpression.matches'] at ha
  have : a = ['.'] := by simpa using ha
  subst this
  exact ⟨b, rfl⟩

/-- Every accepted email splits as `local ++ '@' :: domain` with a non-empty
local part and a non-empty domain containing a dot. -/
lemma email_structure {s : String} (h : isValidEmail s = true) :
    s.data ≠ [] ∧ ∃ a d, s.data = a ++ '@' :: d ∧ a ≠ [] ∧ d ≠ [] ∧ '.' ∈ d := by
  have hm : s.data ∈ emailRE.matches' :=
    (RegularExpression.rmatch_iff_matches' _ _).mp h
  rw [emailRE, RegularExpression.matches'] at hm
  obtain ⟨a, ha, rest, hrest, heq⟩ := Language.mem_mul.mp hm
  rw [RegularExpression.matches'] at hrest
  obtain ⟨at_, hat, d, hd, heq2⟩ := Language.mem_mul.mp hrest
  rw [RegularExpression.matches'] at hat
  have hat' : at_ = ['@'] := by simpa using hat
  subst hat'
  rw [RegularExpression.matches'] at hd
  obtain ⟨e, he, f, hf, heq3⟩ := Language.mem_mul.mp hd
  rw [RegularExpression.matches'] at hf
  obtain ⟨g, hg, h', -, heq4⟩ := Language.mem_mul.mp hf
  obtain ⟨w, hw⟩ := tldGroup_head_dot hg
  have hdot : '.' ∈ d := by
    rw [← heq3, ← heq4, hw]
    simp
  have hdne : d ≠ [] := by
    intro hnil
    rw [hnil] at hdot
    exact absurd hdot (by simp)
  have hane : a ≠ [] := localPart_ne_nil ha
  have hsplit : s.data = a ++ '@' :: d := by
    rw [← heq, ← heq2]
    simp
  refine ⟨?_, a, d, hsplit, hane, hdne, hdot⟩
  rw [hsplit]
  simp

/-- An address containing `'+'` is always rejected: the regex's character
classes cover only word characters, dot, hyphen and the at sign. -/
lemma email_no_plus {s : String} (hplus : '+' ∈ s.data) : isValidEmail s = false := by
  by_contra hne
  have hacc : isValidEmail s = true := by
    cases hv : isValidEmail s
    · exact absurd hv hne
    · rfl
  have hm : s.data ∈ emailRE.matches' :=
    (RegularExpression.rmatch_iff_matches' _ _).mp hacc
  have := matches_onlyChars emailRE onlyChars_emailRE s.data hm '+' hplus
  exact absurd this (by decide)

/-- C9: `isValidEmail` accepts only non-empty strings shaped
`local@domain` with non-empty local and domain parts and at least one dot in
the domain; every address containing `'+'` is rejected; and the test-suite
vectors behave as recorded (`test@example.com` accepted,
`user+tag@example.com`, `invalid-email`, `@example.com`, `test@`,
`test@com` and the empty string rejected). -/
theorem c9_theorem :
    (∀ s : String, isValidEmail s = true →
        s ≠ "" ∧ ∃ a d, s.data = a ++ '@' :: d ∧ a ≠ [] ∧ d ≠ [] ∧ '.' ∈ d) ∧
    (∀ s : String, '+' ∈ s.data → isValidEmail s = false) ∧
    isValidEmail "test@example.com" = true ∧
    isValidEmail "user+tag@example.com" = false ∧
    isValidEmail "invalid-email" = false ∧
    isValidEmail "@example.com" = false ∧
    isValidEmail "test@" = false ∧
    isValidEmail "test@com" = false ∧
    isValidEmail "" = false := by
  refine ⟨?_, fun s h => email_no_plus h, by decide, by decide, by decide, by decide, by decide,
    by decide, by decide⟩
  intro s h
  obtain ⟨hne, a, d, hsplit, hane, hdne, hdot⟩ := email_structure h
  refine ⟨?_, a, d, hsplit, hane, hdne, hdot⟩
  intro hs
  rw [hs] at hne
  exact hne rfl

end FoodOrder
